import Mathlib

/-!
Shallow embedding of the dailyAI conversation service
(src/apps/service/src/chat/chat.service.ts, chat.controller.ts,
dto/send-message.dto.ts) together with theorems settling the claims
about its specification.

Persistence (Prisma) is modelled as explicit state: a `Store` of user,
session, message, journal and transaction rows, threaded through the
orchestration function.  The remote LangGraph agent (`agent.invoke`) is
an oracle parameter: it may read and extend the journal/transaction
tables (its tools do exactly that) and either returns a final message
content or fails.  Fresh row ids are supplied as parameters.
-/

namespace DailyAI

/-- A `User` row (`prisma.user`): id and email. -/
structure User where
  id : String
  email : String
deriving DecidableEq, Repr

/-- A `ChatSession` row (`prisma.chatSession`): id, owning userId, title. -/
structure ChatSession where
  id : String
  userId : String
  title : String
deriving DecidableEq, Repr

/-- Message roles used by the service: the service writes rows with
role `'user'` and `'assistant'`. -/
inductive Role where
  | user
  | assistant
deriving DecidableEq, Repr

/-- A `ChatMessage` row (`prisma.chatMessage`): sessionId, role, content.
Rows are only ever appended (`create`), never updated or deleted. -/
structure ChatMessage where
  sessionId : String
  role : Role
  content : String
deriving DecidableEq, Repr

/-- A `Journal` row (`prisma.journal`), as created by the
`record_journal` tool executor: the mood score is a JS number,
modelled as a rational. `tags` is the comma-joined string
(`tags.join(',')` in the source). -/
structure Journal where
  id : String
  userId : String
  content : String
  moodScore : ℚ
  tags : String
deriving DecidableEq, Repr

/-- Transaction kind: the zod enum `['EXPENSE', 'INCOME']`. -/
inductive TxnType where
  | EXPENSE
  | INCOME
deriving DecidableEq, Repr

/-- A `Transaction` row (`prisma.transaction`), as created by the
`record_transaction` tool executor. -/
structure Txn where
  id : String
  userId : String
  amount : ℚ
  category : String
  type : TxnType
  description : Option String
deriving DecidableEq, Repr

/-- The durable state of the service: the Prisma tables the chat
service touches. Message/journal/transaction rows are append-only. -/
structure Store where
  users : List User
  sessions : List ChatSession
  messages : List ChatMessage
  journals : List Journal
  transactions : List Txn
deriving DecidableEq, Repr

/-- The request body (`SendMessageDto`): content and userId are
required strings, sessionId is optional. -/
structure SendMessageDto where
  content : String
  sessionId : Option String
  userId : String
deriving DecidableEq, Repr

/-- The response shape of `processMessage`:
`{ sessionId, response }`. -/
structure Reply where
  sessionId : String
  response : String
deriving DecidableEq, Repr

/-- Structured (non-string) JSON content, as carried by a LangChain
message whose `content` is not a plain string. -/
inductive Json where
  | null
  | bool (b : Bool)
  | num (q : ℚ)
  | str (s : String)
  | arr (elems : List Json)
  | obj (fields : List (String × Json))

/-- Escape a string for JSON output (quotes and backslashes). -/
def jsonEscape (s : String) : String :=
  s.foldl
    (fun acc c =>
      if c = '"' then acc ++ "\\\""
      else if c = '\\' then acc ++ "\\\\"
      else acc.push c)
    ""

mutual

/-- Embedding of `JSON.stringify` on the structured content: a pure,
hence deterministic, serialization of the JSON value. -/
def Json.stringify : Json → String
  | .null => "null"
  | .bool b => if b then "true" else "false"
  | .num q => toString q
  | .str s => "\"" ++ jsonEscape s ++ "\""
  | .arr elems => "[" ++ Json.stringifyList elems ++ "]"
  | .obj fields => "\x7b" ++ Json.stringifyFields fields ++ "\x7d"

/-- Comma-joined serialization of a JSON array's elements. -/
def Json.stringifyList : List Json → String
  | [] => ""
  | [v] => Json.stringify v
  | v :: rest => Json.stringify v ++ "," ++ Json.stringifyList rest

/-- Comma-joined serialization of a JSON object's fields. -/
def Json.stringifyFields : List (String × Json) → String
  | [] => ""
  | [(k, v)] => "\"" ++ jsonEscape k ++ "\":" ++ Json.stringify v
  | (k, v) :: rest =>
      "\"" ++ jsonEscape k ++ "\":" ++ Json.stringify v ++ "," ++
        Json.stringifyFields rest

end

/-- The content of the final agent message: either already a string or
a structured payload. -/
inductive MsgContent where
  | str (s : String)
  | complex (v : Json)

/-- The source's final-reply conversion:
`typeof assistantMessage.content === 'string' ? assistantMessage.content
: JSON.stringify(assistantMessage.content)`. -/
def serializeContent : MsgContent → String
  | .str s => s
  | .complex v => Json.stringify v

/-- The side-effect state visible to the agent's tools: the journal and
transaction tables (the two tool executors write exactly these). -/
structure AgentSideState where
  journals : List Journal
  transactions : List Txn
deriving DecidableEq, Repr

/-- Outcome of one `agent.invoke` call: a final message content, or a
failure (network error, model error, recursion-limit abort — anything
that makes the promise reject). -/
inductive AgentOutcome where
  | ok (content : MsgContent)
  | error

/-- The agent oracle: `agent.invoke` may run tools (extending the
journal/transaction tables) and then either produces a final content or
fails.  Even a failing invocation keeps whatever tool writes already
happened. -/
def AgentOracle : Type :=
  AgentSideState → AgentSideState × AgentOutcome

/-- Errors of the embedded turn pipeline.  `validationError` is the DTO
validation rejection; `agentError` is a rejected `agent.invoke` promise
propagating out of `processMessage` (there is no catch in the source). -/
inductive ChatError where
  | validationError
  | agentError
deriving DecidableEq, Repr

/-- One persistence/suspension step of a turn, in the order the `await`
expressions occur in `processMessage`.  Used to reason about what is
persisted before what and about interleavings of concurrent turns. -/
inductive TraceOp where
  | upsertUser (userId : String)
  | sessionFind (sessionId : String)
  | sessionCreate (sessionId : String)
  | messageCreate (sessionId : String) (role : Role)
  | agentInvoke (sessionId : String)
deriving DecidableEq, Repr

/-- Step 0 of `processMessage`: `prisma.user.upsert` keyed on `userId`
with `update: {}` and `create: { id: userId, email: userId + "@temp.local" }`. -/
def upsertUser (userId : String) (users : List User) : List User :=
  if users.any (fun u => u.id = userId) then users
  else users ++ [{ id := userId, email := userId ++ "@temp.local" }]

/-- `prisma.chatSession.findUnique({ where: { id: sessionId } })`. -/
def findSession (sessionId : String) (sessions : List ChatSession) :
    Option ChatSession :=
  sessions.find? (fun s => s.id = sessionId)

/-- Count the messages of a given role. -/
def countRole (r : Role) : List ChatMessage → Nat
  | [] => 0
  | m :: rest => (if m.role = r then 1 else 0) + countRole r rest

/-- The result of one embedded turn: the updated store, the ordered
trace of persistence/agent steps performed, and the outcome. -/
structure TurnResult where
  store : Store
  trace : List TraceOp
  outcome : Except ChatError Reply
deriving Repr

/-- Embedding of `ChatService.processMessage` (chat.service.ts):

0. upsert the user (placeholder email for unseen ids);
1. resolve the session: `findUnique` when a sessionId is supplied,
   otherwise none; create a session titled `content.substring(0, 20)`
   when nothing was found;
2. append the user message;
3.-5. build the tools and invoke the agent (the oracle);
6. on success, append the assistant message with the serialized final
   content and return `{ sessionId, response }`; a failing invocation
   propagates (there is no try/catch), keeping all rows written so far.

`freshSessionId`/`freshJournalIds` stand for the ids Prisma would mint. -/
def processMessage (freshSessionId : String) (agent : AgentOracle)
    (dto : SendMessageDto) (st : Store) : TurnResult :=
  let users := upsertUser dto.userId st.users
  let found : Option ChatSession :=
    match dto.sessionId with
    | some sid => findSession sid st.sessions
    | none => none
  let (session, sessions, sessionOps) :=
    match found with
    | some s =>
        (s, st.sessions, [TraceOp.sessionFind s.id])
    | none =>
        let s : ChatSession :=
          { id := freshSessionId
            userId := dto.userId
            title := dto.content.take 20 }
        ((s, st.sessions ++ [s],
          (match dto.sessionId with
           | some sid => [TraceOp.sessionFind sid, TraceOp.sessionCreate s.id]
           | none => [TraceOp.sessionCreate s.id])))
  let userMsg : ChatMessage :=
    { sessionId := session.id, role := .user, content := dto.content }
  let messages := st.messages ++ [userMsg]
  let (side, outcome) :=
    agent { journals := st.journals, transactions := st.transactions }
  let preTrace :=
    [TraceOp.upsertUser dto.userId] ++ sessionOps ++
      [TraceOp.messageCreate session.id .user, TraceOp.agentInvoke session.id]
  match outcome with
  | .error =>
      { store :=
          { users := users, sessions := sessions, messages := messages
            journals := side.journals, transactions := side.transactions }
        trace := preTrace
        outcome := .error .agentError }
  | .ok content =>
      let responseContent := serializeContent content
      let assistantMsg : ChatMessage :=
        { sessionId := session.id, role := .assistant,
          content := responseContent }
      { store :=
          { users := users, sessions := sessions
            messages := messages ++ [assistantMsg]
            journals := side.journals, transactions := side.transactions }
        trace := preTrace ++ [TraceOp.messageCreate session.id .assistant]
        outcome := .ok { sessionId := session.id, response := responseContent } }

/-- Modelled from the spec: the NestJS bootstrap (`main.ts`) that
installs the global `ValidationPipe` is not under src/; the DTO
(`send-message.dto.ts`) declares `content` and `userId` as
`@IsString() @IsNotEmpty()` and `sessionId` as optional, and the spec
says an empty `text` fails with `ValidationError`.  `@IsNotEmpty`
rejects the empty string. -/
def validDto (dto : SendMessageDto) : Bool :=
  dto.content ≠ "" && dto.userId ≠ ""

/-- The external entry point (`handleTurn` in the spec): request
validation against the DTO, then `ChatController.sendMessage`
delegating to `processMessage`.  A rejected DTO never reaches
`processMessage`: no store row is touched and no trace step runs. -/
def handleTurn (freshSessionId : String) (agent : AgentOracle)
    (dto : SendMessageDto) (st : Store) : TurnResult :=
  if validDto dto then processMessage freshSessionId agent dto st
  else { store := st, trace := [], outcome := .error .validationError }

/-! ### The `record_journal` tool (chat.service.ts, `journalToolSchema` /
`journalTool`) -/

/-- The arguments of a `record_journal` call after structural typing:
a string `content`, a JS-number `moodScore` (modelled as ℚ) and a list
of string `tags`. -/
structure JournalInput where
  content : String
  moodScore : ℚ
  tags : List String
deriving DecidableEq, Repr

/-- The zod schema constraint of `journalToolSchema` beyond structural
types: `moodScore: z.number().min(1).max(10)`.  (`content` is
`z.string()` and `tags` is `z.array(z.string())`, which the structural
typing of `JournalInput` already guarantees.) -/
def journalToolSchemaValid (i : JournalInput) : Bool :=
  1 ≤ i.moodScore && i.moodScore ≤ 10

/-- A tool call's result as fed back to the model: success flag and the
human-readable output string. -/
structure ToolResult where
  succeeded : Bool
  output : String
deriving DecidableEq, Repr

/-- One `record_journal` tool call as dispatched by the agent's tool
node: the arguments are validated against `journalToolSchema` before
the executor runs; on validation failure the executor never runs, no
row is written, and the failed result carries the schema-mismatch
message; on success `journalTool.func` inserts one `Journal` row
(with `tags.join(',')`) and returns the confirmation string.
`freshJournalId` is the id Prisma would mint. -/
def runJournalTool (userId freshJournalId : String) (i : JournalInput)
    (journals : List Journal) : List Journal × ToolResult :=
  if journalToolSchemaValid i then
    let row : Journal :=
      { id := freshJournalId
        userId := userId
        content := i.content
        moodScore := i.moodScore
        tags := String.intercalate "," i.tags }
    (journals ++ [row],
     { succeeded := true
       output := "Successfully saved journal entry with mood score " ++
         toString i.moodScore ++ ". ID: " ++ freshJournalId })
  else
    (journals,
     { succeeded := false
       output := "Received tool input did not match expected schema" })

/-! ### The bounded reasoning loop -/

/-- A single model invocation's output: final content, or a non-empty
batch of requested tool calls (represented by their count here; the
loop's control flow depends only on which variant occurred). -/
inductive ModelOutput where
  | final (content : MsgContent)
  | toolCalls (count : Nat)

/-- Terminal states of the reasoning loop. -/
inductive LoopResult where
  | done (content : MsgContent)
  | aborted

/-- Whether a model output requests tool calls. -/
def ModelOutput.isToolCalls : ModelOutput → Bool
  | .final _ => false
  | .toolCalls _ => true

/-- Modelled from the spec: the reasoning loop itself lives in the
`createReactAgent` graph of `@langchain/langgraph`, a dependency, not
under src/.  Per the spec it alternates `AwaitingModel` and
`ExecutingTools` and "aborts to `Aborted` after a fixed maximum number
of model invocations per turn".  `remaining` is the number of model
invocations still allowed; `invocations` counts those already made.
The model oracle is indexed by the invocation number.  Returns the
terminal state together with the total number of model invocations. -/
def runLoopAux (model : Nat → ModelOutput) :
    Nat → Nat → LoopResult × Nat
  | 0, invocations => (.aborted, invocations)
  | remaining + 1, invocations =>
      match model invocations with
      | .final c => (.done c, invocations + 1)
      | .toolCalls _ => runLoopAux model remaining (invocations + 1)

/-- Run the reasoning loop with iteration bound `bound` from the start
state (no invocations made yet). -/
def runLoop (model : Nat → ModelOutput) (bound : Nat) : LoopResult × Nat :=
  runLoopAux model bound 0

/-! ### Interleavings of concurrent turns

Each `await` in `processMessage` is a suspension point of the Node.js
event loop, so two in-flight turns may interleave their
persistence/agent steps at exactly those boundaries.  A concurrent
execution of two turns is therefore any merge of their traces that
keeps each turn's own order. -/

/-- `Merge xs ys zs`: `zs` is an interleaving of `xs` and `ys`
preserving the relative order of each. -/
inductive Merge : List TraceOp → List TraceOp → List TraceOp → Prop
  | nil : Merge [] [] []
  | left {a : TraceOp} {xs ys zs : List TraceOp} :
      Merge xs ys zs → Merge (a :: xs) ys (a :: zs)
  | right {a : TraceOp} {xs ys zs : List TraceOp} :
      Merge xs ys zs → Merge xs (a :: ys) (a :: zs)

/-! ### Concrete fixtures used by witnesses and counterexamples -/

/-- An agent oracle that runs no tools and finalizes with the given
string content. -/
def okAgent (s : String) : AgentOracle := fun side => (side, .ok (.str s))

/-- An agent oracle whose invocation fails (rejected promise:
network/model failure or recursion-limit abort). -/
def errAgent : AgentOracle := fun side => (side, .error)

/-- A store holding one user `alice` owning one session `s1`. -/
def st0 : Store :=
  { users := [{ id := "alice", email := "alice@temp.local" }]
    sessions := [{ id := "s1", userId := "alice", title := "hello" }]
    messages := []
    journals := []
    transactions := [] }

/-- A turn from `bob` addressed to session `s1` (owned by `alice`). -/
def dtoBob : SendMessageDto :=
  { content := "hi there", sessionId := some "s1", userId := "bob" }

/-- A turn from `alice` addressed to her own session `s1`. -/
def dtoAlice : SendMessageDto :=
  { content := "hello again", sessionId := some "s1", userId := "alice" }

/-! ### Helper lemmas -/

/-- `countRole` distributes over append. -/
theorem countRole_append (r : Role) (xs ys : List ChatMessage) :
    countRole r (xs ++ ys) = countRole r xs + countRole r ys := by
  induction xs with
  | nil => simp [countRole]
  | cons m rest ih => simp [countRole, ih, Nat.add_assoc]

/-! ### C1 — ownership of a supplied sessionId -/

/-- C1 counterexample: the session `s1` is owned by `alice`, yet a turn
from `bob` supplying `sessionId = s1` does not fail with any
authorization error — it succeeds and appends both of its messages to
`alice`'s session.  `processMessage` performs no ownership check. -/
theorem c1_counterexample :
    st0.sessions = [{ id := "s1", userId := "alice", title := "hello" }] ∧
    dtoBob.userId = "bob" ∧ "bob" ≠ "alice" ∧
    (processMessage "fresh1" (okAgent "hello") dtoBob st0).outcome =
      .ok { sessionId := "s1", response := "hello" } ∧
    (processMessage "fresh1" (okAgent "hello") dtoBob st0).store.messages =
      [{ sessionId := "s1", role := .user, content := "hi there" },
       { sessionId := "s1", role := .assistant, content := "hello" }] :=
  ⟨rfl, rfl, by decide, rfl, rfl⟩

/-- C1 amended: supplying a sessionId of an existing session is never
rejected on ownership grounds — whatever the session's owner,
`processMessage` reuses the session and appends the turn's user and
assistant messages to it, returning a successful reply. -/
theorem c1_no_ownership_check (fresh : String) (agent : AgentOracle)
    (dto : SendMessageDto) (st : Store) (sid : String) (s : ChatSession)
    (side : AgentSideState) (c : MsgContent)
    (hsid : dto.sessionId = some sid)
    (hfind : findSession sid st.sessions = some s)
    (hagent : agent { journals := st.journals, transactions := st.transactions } =
      (side, .ok c)) :
    (processMessage fresh agent dto st).outcome =
      .ok { sessionId := s.id, response := serializeContent c } ∧
    (processMessage fresh agent dto st).store.messages =
      st.messages ++
        [{ sessionId := s.id, role := .user, content := dto.content },
         { sessionId := s.id, role := .assistant, content := serializeContent c }] ∧
    (processMessage fresh agent dto st).store.sessions = st.sessions := by
  simp [processMessage, hsid, hfind, hagent]

/-- C1 witness: the amended theorem applied to the cross-owner turn of
the counterexample's scenario. -/
theorem c1_no_ownership_check_witness :
    (processMessage "fresh1" (okAgent "hello") dtoBob st0).outcome =
      .ok { sessionId := "s1", response := serializeContent (.str "hello") } ∧
    (processMessage "fresh1" (okAgent "hello") dtoBob st0).store.messages =
      st0.messages ++
        [{ sessionId := "s1", role := .user, content := dtoBob.content },
         { sessionId := "s1", role := .assistant,
           content := serializeContent (.str "hello") }] ∧
    (processMessage "fresh1" (okAgent "hello") dtoBob st0).store.sessions =
      st0.sessions :=
  c1_no_ownership_check "fresh1" (okAgent "hello") dtoBob st0 "s1"
    { id := "s1", userId := "alice", title := "hello" }
    { journals := [], transactions := [] } (.str "hello") rfl rfl rfl

/-! ### C2 — behavior on Reasoning Loop failure -/

/-- C2 counterexample: when the agent invocation fails on a valid turn,
`processMessage` propagates the failure (there is no try/catch around
`agent.invoke`): the caller gets an error, not a reply, and no fallback
assistant message is persisted. -/
theorem c2_counterexample :
    (processMessage "fresh1" errAgent dtoBob st0).outcome = .error .agentError ∧
    countRole .assistant
      (processMessage "fresh1" errAgent dtoBob st0).store.messages = 0 :=
  ⟨rfl, rfl⟩

/-- C2 amended: on agent-invocation failure the error propagates to the
caller; no fallback assistant message is appended (the assistant-message
count is unchanged), while the user message persisted before the
invocation is retained. -/
theorem c2_failure_propagates (fresh : String) (agent : AgentOracle)
    (dto : SendMessageDto) (st : Store) (side : AgentSideState)
    (hagent : agent { journals := st.journals, transactions := st.transactions } =
      (side, .error)) :
    (processMessage fresh agent dto st).outcome = .error .agentError ∧
    countRole .assistant (processMessage fresh agent dto st).store.messages =
      countRole .assistant st.messages ∧
    (∃ sid, (processMessage fresh agent dto st).store.messages =
      st.messages ++ [{ sessionId := sid, role := .user, content := dto.content }]) := by
  rcases hS : dto.sessionId with _ | sid
  · simp [processMessage, hS, hagent, countRole_append, countRole]
  · rcases hF : findSession sid st.sessions with _ | s
    · simp [processMessage, hS, hF, hagent, countRole_append, countRole]
    · simp [processMessage, hS, hF, hagent, countRole_append, countRole]

/-- C2 witness: the amended theorem applied to `bob`'s turn on session
`s1` with a failing agent. -/
theorem c2_failure_propagates_witness :
    (processMessage "fresh1" errAgent dtoBob st0).outcome = .error .agentError ∧
    countRole .assistant (processMessage "fresh1" errAgent dtoBob st0).store.messages =
      countRole .assistant st0.messages ∧
    (∃ sid, (processMessage "fresh1" errAgent dtoBob st0).store.messages =
      st0.messages ++ [{ sessionId := sid, role := .user, content := dtoBob.content }]) :=
  c2_failure_propagates "fresh1" errAgent dtoBob st0
    { journals := [], transactions := [] } rfl

/-! ### C3 — exactly one user and one assistant message per turn -/

/-- C3 counterexample: a valid turn (the DTO passes validation) whose
agent invocation fails appends its user message but no assistant
message at all, so not every valid turn appends exactly one assistant
message. -/
theorem c3_counterexample :
    validDto dtoBob = true ∧
    (handleTurn "fresh1" errAgent dtoBob st0).store.messages =
      [{ sessionId := "s1", role := .user, content := "hi there" }] ∧
    countRole .assistant
      (handleTurn "fresh1" errAgent dtoBob st0).store.messages = 0 :=
  ⟨rfl, rfl, rfl⟩

/-- C3 amended: for every valid turn whose agent invocation succeeds,
exactly one user message and one assistant message are appended, in
that order, no matter what journal/transaction writes the agent's tool
calls performed; and on every such turn the user message is persisted
(its `messageCreate` step occurs) strictly before the agent is invoked. -/
theorem c3_message_appends (fresh : String) (agent : AgentOracle)
    (dto : SendMessageDto) (st : Store) (side : AgentSideState) (c : MsgContent)
    (hvalid : validDto dto = true)
    (hagent : agent { journals := st.journals, transactions := st.transactions } =
      (side, .ok c)) :
    ∃ sid,
      (handleTurn fresh agent dto st).store.messages =
        st.messages ++
          [{ sessionId := sid, role := .user, content := dto.content },
           { sessionId := sid, role := .assistant, content := serializeContent c }] ∧
      (∃ pre post, (handleTurn fresh agent dto st).trace =
        pre ++ [TraceOp.messageCreate sid .user, TraceOp.agentInvoke sid] ++ post) := by
  rcases hS : dto.sessionId with _ | sid
  · exact ⟨fresh, by simp [handleTurn, hvalid, processMessage, hS, hagent],
      [TraceOp.upsertUser dto.userId, TraceOp.sessionCreate fresh],
      [TraceOp.messageCreate fresh .assistant],
      by simp [handleTurn, hvalid, processMessage, hS, hagent]⟩
  · rcases hF : findSession sid st.sessions with _ | s
    · exact ⟨fresh, by simp [handleTurn, hvalid, processMessage, hS, hF, hagent],
        [TraceOp.upsertUser dto.userId, TraceOp.sessionFind sid,
         TraceOp.sessionCreate fresh],
        [TraceOp.messageCreate fresh .assistant],
        by simp [handleTurn, hvalid, processMessage, hS, hF, hagent]⟩
    · exact ⟨s.id, by simp [handleTurn, hvalid, processMessage, hS, hF, hagent],
        [TraceOp.upsertUser dto.userId, TraceOp.sessionFind s.id],
        [TraceOp.messageCreate s.id .assistant],
        by simp [handleTurn, hvalid, processMessage, hS, hF, hagent]⟩

/-- C3 witness: the amended theorem applied to `alice`'s turn on her
session with a succeeding agent. -/
theorem c3_message_appends_witness :
    ∃ sid,
      (handleTurn "fresh1" (okAgent "sure") dtoAlice st0).store.messages =
        st0.messages ++
          [{ sessionId := sid, role := .user, content := dtoAlice.content },
           { sessionId := sid, role := .assistant,
             content := serializeContent (.str "sure") }] ∧
      (∃ pre post, (handleTurn "fresh1" (okAgent "sure") dtoAlice st0).trace =
        pre ++ [TraceOp.messageCreate sid .user, TraceOp.agentInvoke sid] ++ post) :=
  c3_message_appends "fresh1" (okAgent "sure") dtoAlice st0
    { journals := [], transactions := [] } (.str "sure") rfl rfl

/-! ### C4 — `record_journal` moodScore validation -/

/-- C4 counterexample: the zod schema checks only
`z.number().min(1).max(10)` — it does not require an integer.  The
non-integer moodScore 11/2 passes validation, the executor runs, and
exactly one `Journal` row is created, contradicting "a JournalEntry is
created only when moodScore is an integer". -/
theorem c4_counterexample :
    (runJournalTool "u0" "j1"
        { content := "x", moodScore := 11 / 2, tags := [] } []).1 =
      [{ id := "j1", userId := "u0", content := "x",
         moodScore := 11 / 2, tags := "" }] ∧
    (runJournalTool "u0" "j1"
        { content := "x", moodScore := 11 / 2, tags := [] } []).2.succeeded = true ∧
    ((11 / 2 : ℚ).den ≠ 1) := by
  refine ⟨?_, ?_, by norm_num⟩ <;>
    norm_num [runJournalTool, journalToolSchemaValid, String.intercalate]

/-- C4 amended: a `record_journal` call creates a `JournalEntry`
exactly when `1 ≤ moodScore ≤ 10` as a number (integrality is not
enforced): an in-range moodScore yields exactly one new row (with the
comma-joined tags) and a succeeded result, while an out-of-range
moodScore (such as 11 or 0) is rejected by schema validation before the
executor runs, yielding zero new rows and a failed `ToolResult`
carrying the schema-mismatch message. -/
theorem c4_range_gates_journal (u fid : String) (i : JournalInput)
    (js : List Journal) :
    ((1 ≤ i.moodScore ∧ i.moodScore ≤ 10) →
      (runJournalTool u fid i js).1 =
        js ++ [{ id := fid, userId := u, content := i.content,
                 moodScore := i.moodScore,
                 tags := String.intercalate "," i.tags }] ∧
      (runJournalTool u fid i js).2.succeeded = true) ∧
    (¬(1 ≤ i.moodScore ∧ i.moodScore ≤ 10) →
      (runJournalTool u fid i js).1 = js ∧
      (runJournalTool u fid i js).2 =
        { succeeded := false,
          output := "Received tool input did not match expected schema" }) := by
  constructor
  · intro h
    simp [runJournalTool, journalToolSchemaValid, h.1, h.2]
  · intro h
    rw [Classical.not_and_iff_or_not_not] at h
    rcases h with h | h <;>
      simp [runJournalTool, journalToolSchemaValid, h]

/-- C4 witness: the amended theorem applied to a call with
moodScore = 11 (out of range: rejected, no row) — the instantiated
conjunction specializes both directions at that input. -/
theorem c4_range_gates_journal_witness :
    ((1 ≤ (11 : ℚ) ∧ (11 : ℚ) ≤ 10) →
      (runJournalTool "u0" "j2"
          { content := "y", moodScore := 11, tags := [] } []).1 =
        [] ++ [{ id := "j2", userId := "u0", content := "y",
                 moodScore := 11, tags := String.intercalate "," [] }] ∧
      (runJournalTool "u0" "j2"
          { content := "y", moodScore := 11, tags := [] } []).2.succeeded = true) ∧
    (¬(1 ≤ (11 : ℚ) ∧ (11 : ℚ) ≤ 10) →
      (runJournalTool "u0" "j2"
          { content := "y", moodScore := 11, tags := [] } []).1 = [] ∧
      (runJournalTool "u0" "j2"
          { content := "y", moodScore := 11, tags := [] } []).2 =
        { succeeded := false,
          output := "Received tool input did not match expected schema" }) :=
  c4_range_gates_journal "u0" "j2"
    { content := "y", moodScore := 11, tags := [] } []

/-! ### C5 — idempotent session resolution -/

/-- The session table after one turn: a known sessionId leaves the
table unchanged; an absent or unknown sessionId appends exactly one new
session, titled with the first 20 characters of the turn's content. -/
theorem processMessage_sessions (fresh : String) (agent : AgentOracle)
    (dto : SendMessageDto) (st : Store) :
    (processMessage fresh agent dto st).store.sessions =
      (match dto.sessionId with
       | some sid =>
           match findSession sid st.sessions with
           | some _ => st.sessions
           | none => st.sessions ++
               [{ id := fresh, userId := dto.userId, title := dto.content.take 20 }]
       | none => st.sessions ++
           [{ id := fresh, userId := dto.userId, title := dto.content.take 20 }]) := by
  rcases hA : agent { journals := st.journals, transactions := st.transactions }
    with ⟨side, outcome⟩
  rcases hS : dto.sessionId with _ | sid
  · cases outcome <;> simp [processMessage, hS, hA]
  · rcases hF : findSession sid st.sessions with _ | s <;>
      cases outcome <;> simp [processMessage, hS, hF, hA]

/-- C5: session resolution is idempotent.  (i) An absent sessionId or a
sessionId not present in the store creates exactly one new session,
titled from the first user message (`content.substring(0, 20)`).
(ii) A known sessionId reuses the session: the session table is
unchanged.  (iii) Running a second turn with the same known sessionId
on the resulting store still creates no session: after both turns the
session table equals the original one. -/
theorem c5_session_resolution (fresh fresh2 : String)
    (agent agent2 : AgentOracle) (dto dto2 : SendMessageDto) (st : Store)
    (sid : String) (s : ChatSession)
    (hsid : dto.sessionId = some sid)
    (hsid2 : dto2.sessionId = some sid)
    (hfind : findSession sid st.sessions = some s) :
    (processMessage fresh agent dto st).store.sessions = st.sessions ∧
    (processMessage fresh2 agent2 dto2
        (processMessage fresh agent dto st).store).store.sessions =
      st.sessions ∧
    (∀ (dto3 : SendMessageDto) (fresh3 : String) (agent3 : AgentOracle),
      (dto3.sessionId = none ∨
        (∃ sid3, dto3.sessionId = some sid3 ∧
          findSession sid3 st.sessions = none)) →
      (processMessage fresh3 agent3 dto3 st).store.sessions =
        st.sessions ++
          [{ id := fresh3, userId := dto3.userId,
             title := dto3.content.take 20 }]) := by
  have h1 : (processMessage fresh agent dto st).store.sessions = st.sessions := by
    rw [processMessage_sessions]
    simp [hsid, hfind]
  refine ⟨h1, ?_, ?_⟩
  · rw [processMessage_sessions]
    simp [hsid2, h1, hfind]
  · intro dto3 fresh3 agent3 h3
    rw [processMessage_sessions]
    rcases h3 with h3 | ⟨sid3, hsid3, hfind3⟩
    · simp [h3]
    · simp [hsid3, hfind3]

/-- C5 witness: two successive turns from `alice` with the known
session `s1`, and a fresh-session turn with no sessionId, at concrete
inputs. -/
theorem c5_session_resolution_witness :
    (processMessage "fresh1" (okAgent "a") dtoAlice st0).store.sessions =
      st0.sessions ∧
    (processMessage "fresh2" (okAgent "b") dtoAlice
        (processMessage "fresh1" (okAgent "a") dtoAlice st0).store).store.sessions =
      st0.sessions ∧
    (∀ (dto3 : SendMessageDto) (fresh3 : String) (agent3 : AgentOracle),
      (dto3.sessionId = none ∨
        (∃ sid3, dto3.sessionId = some sid3 ∧
          findSession sid3 st0.sessions = none)) →
      (processMessage fresh3 agent3 dto3 st0).store.sessions =
        st0.sessions ++
          [{ id := fresh3, userId := dto3.userId,
             title := dto3.content.take 20 }]) :=
  c5_session_resolution "fresh1" "fresh2" (okAgent "a") (okAgent "b")
    dtoAlice dtoAlice st0 "s1"
    { id := "s1", userId := "alice", title := "hello" } rfl rfl rfl

/-! ### C6 — the reasoning loop is bounded -/

/-- If the model always requests tool calls, the loop consumes all of
its remaining invocation budget and aborts, having made exactly
`remaining` further invocations. -/
theorem runLoopAux_all_toolCalls (model : Nat → ModelOutput)
    (h : ∀ k, (model k).isToolCalls = true) :
    ∀ remaining invocations,
      runLoopAux model remaining invocations = (.aborted, invocations + remaining) := by
  intro remaining
  induction remaining with
  | zero => intro invocations; simp [runLoopAux]
  | succ r ih =>
      intro invocations
      have hm := h invocations
      rcases hc : model invocations with c | n
      · rw [hc] at hm; simp [ModelOutput.isToolCalls] at hm
      · rw [runLoopAux, hc, ih (invocations + 1)]
        have harith : invocations + 1 + r = invocations + (r + 1) := by omega
        rw [harith]

/-- C6: the reasoning loop is bounded.  A model that always requests
tool calls and never finalizes drives the loop to `Aborted` after
exactly `N` model invocations (it never iterates further); and an
aborted/failed agent invocation is a turn failure at the facade:
`processMessage` reports an error for that turn. -/
theorem c6_loop_bounded (model : Nat → ModelOutput) (N : Nat)
    (h : ∀ k, (model k).isToolCalls = true)
    (fresh : String) (agent : AgentOracle) (dto : SendMessageDto)
    (st : Store) (side : AgentSideState)
    (hagent : agent { journals := st.journals, transactions := st.transactions } =
      (side, .error)) :
    runLoop model N = (.aborted, N) ∧
    (processMessage fresh agent dto st).outcome = .error .agentError := by
  constructor
  · rw [runLoop, runLoopAux_all_toolCalls model h N 0, Nat.zero_add]
  · rcases hS : dto.sessionId with _ | sid
    · simp [processMessage, hS, hagent]
    · rcases hF : findSession sid st.sessions with _ | s <;>
        simp [processMessage, hS, hF, hagent]

/-- A model oracle that requests a tool call on every invocation and
never finalizes. -/
def alwaysToolCalls : Nat → ModelOutput := fun _ => .toolCalls 1

/-- C6 witness: the bound theorem at the concrete never-finalizing
model with bound 25 (the `@langchain/langgraph` default recursion
limit) and a concrete failing turn. -/
theorem c6_loop_bounded_witness :
    runLoop alwaysToolCalls 25 = (.aborted, 25) ∧
    (processMessage "fresh1" errAgent dtoBob st0).outcome = .error .agentError :=
  c6_loop_bounded alwaysToolCalls 25 (fun _ => rfl) "fresh1" errAgent dtoBob st0
    { journals := [], transactions := [] } rfl

/-! ### C7 — concurrent turns on the same session -/

/-- The step trace of `alice`'s turn on session `s1`. -/
def traceA : List TraceOp :=
  (processMessage "freshA" (okAgent "ra") dtoAlice st0).trace

/-- The step trace of `bob`'s concurrent turn on the same session `s1`. -/
def traceB : List TraceOp :=
  (processMessage "freshB" (okAgent "rb") dtoBob st0).trace

/-- A strictly alternating schedule of the two turns' steps: each turn
suspends at every `await`, and the event loop resumes the other. -/
def interleaved0 : List TraceOp :=
  [.upsertUser "alice", .upsertUser "bob",
   .sessionFind "s1", .sessionFind "s1",
   .messageCreate "s1" .user, .messageCreate "s1" .user,
   .agentInvoke "s1", .agentInvoke "s1",
   .messageCreate "s1" .assistant, .messageCreate "s1" .assistant]

/-- C7 counterexample: `processMessage` has no per-session lock, queue,
or `SessionBusy` rejection, so a concurrent execution of two turns on
session `s1` is any order-preserving merge of their step traces.  The
alternating schedule is such a merge, and it is not either serial
order: the two turns interleave. -/
theorem c7_counterexample :
    Merge traceA traceB interleaved0 ∧
    interleaved0 ≠ traceA ++ traceB ∧
    interleaved0 ≠ traceB ++ traceA := by
  refine ⟨?_, by decide, by decide⟩
  have hA : traceA =
      [.upsertUser "alice", .sessionFind "s1", .messageCreate "s1" .user,
       .agentInvoke "s1", .messageCreate "s1" .assistant] := rfl
  have hB : traceB =
      [.upsertUser "bob", .sessionFind "s1", .messageCreate "s1" .user,
       .agentInvoke "s1", .messageCreate "s1" .assistant] := rfl
  rw [hA, hB]
  exact .left (.right (.left (.right (.left (.right (.left (.right
    (.left (.right .nil)))))))))

/-- C7 amended: the service has no session concurrency guard — there
is no `SessionBusy` result and nothing queues a second turn behind the
first — so two turns in flight on the same session admit a concurrent
schedule that is a genuine interleaving, not either serial order. -/
theorem c7_no_concurrency_guard :
    ∃ m, Merge traceA traceB m ∧
      m ≠ traceA ++ traceB ∧ m ≠ traceB ++ traceA := by
  refine ⟨interleaved0, ?_, by decide, by decide⟩
  have hA : traceA =
      [.upsertUser "alice", .sessionFind "s1", .messageCreate "s1" .user,
       .agentInvoke "s1", .messageCreate "s1" .assistant] := rfl
  have hB : traceB =
      [.upsertUser "bob", .sessionFind "s1", .messageCreate "s1" .user,
       .agentInvoke "s1", .messageCreate "s1" .assistant] := rfl
  rw [hA, hB]
  exact .left (.right (.left (.right (.left (.right (.left (.right
    (.left (.right .nil)))))))))

/-! ### C8 — empty text fails validation -/

/-- C8: a turn whose content is empty is rejected by DTO validation
with `ValidationError` before anything runs: the store is untouched (no
session resolved or created, no message persisted) and no
persistence/agent step is traced. -/
theorem c8_empty_text_rejected (fresh : String) (agent : AgentOracle)
    (dto : SendMessageDto) (st : Store) (h : dto.content = "") :
    (handleTurn fresh agent dto st).outcome = .error .validationError ∧
    (handleTurn fresh agent dto st).store = st ∧
    (handleTurn fresh agent dto st).trace = [] := by
  have hv : validDto dto = false := by simp [validDto, h]
  simp [handleTurn, hv]

/-- C8 witness: the theorem at a concrete empty-content turn. -/
theorem c8_empty_text_rejected_witness :
    (handleTurn "fresh1" (okAgent "x")
        { content := "", sessionId := none, userId := "u1" } st0).outcome =
      .error .validationError ∧
    (handleTurn "fresh1" (okAgent "x")
        { content := "", sessionId := none, userId := "u1" } st0).store = st0 ∧
    (handleTurn "fresh1" (okAgent "x")
        { content := "", sessionId := none, userId := "u1" } st0).trace = [] :=
  c8_empty_text_rejected "fresh1" (okAgent "x")
    { content := "", sessionId := none, userId := "u1" } st0 rfl

/-! ### C9 — serialization of the final content -/

/-- C9: when the agent finalizes, the reply text is
`serializeContent` of the final content — the returned response and the
persisted assistant message (the last message of the store) both carry
exactly that text, which depends on the content alone; and a final
content that is already a string is passed through unchanged. -/
theorem c9_final_content_serialization (fresh : String) (agent : AgentOracle)
    (dto : SendMessageDto) (st : Store) (side : AgentSideState) (c : MsgContent)
    (hagent : agent { journals := st.journals, transactions := st.transactions } =
      (side, .ok c)) :
    (∃ sid, (processMessage fresh agent dto st).outcome =
        .ok { sessionId := sid, response := serializeContent c } ∧
      (processMessage fresh agent dto st).store.messages.getLast? =
        some { sessionId := sid, role := .assistant,
               content := serializeContent c }) ∧
    (∀ s, serializeContent (.str s) = s) := by
  refine ⟨?_, fun s => rfl⟩
  rcases hS : dto.sessionId with _ | sid
  · exact ⟨fresh, by simp [processMessage, hS, hagent],
      by simp [processMessage, hS, hagent]⟩
  · rcases hF : findSession sid st.sessions with _ | s
    · exact ⟨fresh, by simp [processMessage, hS, hF, hagent],
        by simp [processMessage, hS, hF, hagent]⟩
    · exact ⟨s.id, by simp [processMessage, hS, hF, hagent],
        by simp [processMessage, hS, hF, hagent]⟩

/-- An agent oracle finalizing with a structured (non-string) payload. -/
def structuredAgent : AgentOracle :=
  fun side => (side, .ok (.complex (.obj [("answer", .num 42)])))

/-- C9 witness: the theorem at a turn whose agent finalizes with a
structured payload. -/
theorem c9_final_content_serialization_witness :
    (∃ sid, (processMessage "fresh1" structuredAgent dtoAlice st0).outcome =
        .ok { sessionId := sid,
              response := serializeContent (.complex (.obj [("answer", .num 42)])) } ∧
      (processMessage "fresh1" structuredAgent dtoAlice st0).store.messages.getLast? =
        some { sessionId := sid, role := .assistant,
               content := serializeContent (.complex (.obj [("answer", .num 42)])) }) ∧
    (∀ s, serializeContent (.str s) = s) :=
  c9_final_content_serialization "fresh1" structuredAgent dtoAlice st0
    { journals := [], transactions := [] } (.complex (.obj [("answer", .num 42)])) rfl

/-! ### C10 — users are provisioned before anything else -/

/-- The user table after one turn is exactly the upsert of the turn's
userId, whatever the session resolution and agent outcome. -/
theorem processMessage_users (fresh : String) (agent : AgentOracle)
    (dto : SendMessageDto) (st : Store) :
    (processMessage fresh agent dto st).store.users =
      upsertUser dto.userId st.users := by
  rcases hA : agent { journals := st.journals, transactions := st.transactions }
    with ⟨side, outcome⟩
  rcases hS : dto.sessionId with _ | sid
  · cases outcome <;> simp [processMessage, hS, hA]
  · rcases hF : findSession sid st.sessions with _ | s <;>
      cases outcome <;> simp [processMessage, hS, hF, hA]

/-- C10: every turn first ensures a user row with the turn's userId
exists.  After the turn the user is present; a previously unseen userId
is provisioned with the placeholder email `<userId>@temp.local` (an
already-present userId leaves the table unchanged); and the upsert is
the first step of the turn's trace, before any session or message
persistence. -/
theorem c10_user_provisioning (fresh : String) (agent : AgentOracle)
    (dto : SendMessageDto) (st : Store) :
    (processMessage fresh agent dto st).store.users.any
      (fun u => u.id = dto.userId) = true ∧
    (st.users.any (fun u => u.id = dto.userId) = false →
      (processMessage fresh agent dto st).store.users =
        st.users ++ [{ id := dto.userId, email := dto.userId ++ "@temp.local" }]) ∧
    (st.users.any (fun u => u.id = dto.userId) = true →
      (processMessage fresh agent dto st).store.users = st.users) ∧
    (∃ rest, (processMessage fresh agent dto st).trace =
      TraceOp.upsertUser dto.userId :: rest) := by
  refine ⟨?_, ?_, ?_, ?_⟩
  · rw [processMessage_users]
    unfold upsertUser
    by_cases h : st.users.any (fun u => u.id = dto.userId) = true
    · simp [h]
    · simp only [h, if_neg, Bool.not_eq_true] at h ⊢
      simp [h]
  · intro h
    rw [processMessage_users]
    simp [upsertUser, h]
  · intro h
    rw [processMessage_users]
    simp [upsertUser, h]
  · rcases hA : agent { journals := st.journals, transactions := st.transactions }
      with ⟨side, outcome⟩
    rcases hS : dto.sessionId with _ | sid
    · cases outcome <;> simp [processMessage, hS, hA]
    · rcases hF : findSession sid st.sessions with _ | s <;>
        cases outcome <;> simp [processMessage, hS, hF, hA]

/-- C10 witness: the theorem at `bob`'s turn on `st0`, where `bob` has
no user row yet. -/
theorem c10_user_provisioning_witness :
    (processMessage "fresh1" (okAgent "hello") dtoBob st0).store.users.any
      (fun u => u.id = dtoBob.userId) = true ∧
    (st0.users.any (fun u => u.id = dtoBob.userId) = false →
      (processMessage "fresh1" (okAgent "hello") dtoBob st0).store.users =
        st0.users ++
          [{ id := dtoBob.userId, email := dtoBob.userId ++ "@temp.local" }]) ∧
    (st0.users.any (fun u => u.id = dtoBob.userId) = true →
      (processMessage "fresh1" (okAgent "hello") dtoBob st0).store.users =
        st0.users) ∧
    (∃ rest, (processMessage "fresh1" (okAgent "hello") dtoBob st0).trace =
      TraceOp.upsertUser dtoBob.userId :: rest) :=
  c10_user_provisioning "fresh1" (okAgent "hello") dtoBob st0

end DailyAI
